import Mathlib

/-
Verification of the pipeline execution core of the workflows repository
(src/main.rs, src/command.rs, src/http.rs).

Modelling conventions:
- Rust HashMap<String, String> values are modelled as association lists
  (List (String × String)) queried with List.lookup.
- Fallible Rust functions returning anyhow::Result are modelled with
  Except String.
- Real-world side effects (network requests, process spawning, the process
  environment) enter the model as oracle parameters that are universally
  quantified in the theorems.
- The variable resolver fulfill lives in src/parser.rs, which is not part of
  the available sources; it is modelled from the specification (see its doc
  comment below).
-/

namespace Workflows

/-- Run context from src/main.rs: an environment snapshot taken once at
startup and the latest step output (field name input, as in the source). -/
structure Context where
  env : List (String × String)
  input : List (String × String)
deriving Repr, DecidableEq

/-- Context.new from src/main.rs: the environment snapshot comes from
env::vars(), modelled as the parameter vars; input starts empty. -/
def Context.new (vars : List (String × String)) : Context :=
  { env := vars, input := [] }

/-- Payload from src/main.rs: the parameter mapping handed to a step. -/
structure Payload where
  parameters : List (String × String)
deriving Repr, DecidableEq

/-- Payload::parameter from src/main.rs: look the key up, defaulting to the
empty string when the key is absent. -/
def Payload.parameter (p : Payload) (key : String) : String :=
  (p.parameters.lookup key).getD ""

/-- One entry of the Workflow trait object from src/main.rs: declared
parameter names, declared output names, and the execute operation. The
execute bodies perform real-world effects, so they are oracle data here. -/
structure Workflow where
  parameters : List String
  outputs : List String
  execute : Payload → Except String Payload

/-- WorkflowConfig from src/main.rs: a configured step (type name and raw
parameter strings, possibly containing placeholders). -/
structure WorkflowConfig where
  workflow_type : String
  parameters : List (String × String)

/-- The dollar character, written by code point to keep string literals
plain. -/
def dollarChar : Char := Char.ofNat 36

/-- The opening brace character, by code point. -/
def lbraceChar : Char := Char.ofNat 123

/-- The closing brace character, by code point. -/
def rbraceChar : Char := Char.ofNat 125

/-- Modelled from the spec: the two-tier variable lookup of the resolver in
the missing src/parser.rs. The spec leaves the precedence between the
prior-output tier and the environment tier open; this model fixes
prior-output first, environment second. -/
def lookupVar (ctx : Context) (name : String) : Option String :=
  match ctx.input.lookup name with
  | some v => some v
  | none => ctx.env.lookup name

/-- Modelled from the spec: the character-level worker of the resolver
fulfill from the missing src/parser.rs. The first argument is none in
literal mode and some acc inside a placeholder, acc holding the reversed
name characters. The spec leaves the placeholder syntax open; this model
fixes a dollar sign followed by a braced name. A placeholder naming a
variable absent from both tiers is an error; a substituted value is
inserted literally, never re-resolved. -/
def fulfillGo (ctx : Context) : Option (List Char) → List Char → Except String (List Char)
  | none, [] => Except.ok []
  | none, [c] => Except.ok [c]
  | none, c :: c2 :: rest =>
    if c = dollarChar ∧ c2 = lbraceChar then fulfillGo ctx (some []) rest
    else (fulfillGo ctx none (c2 :: rest)).map (fun l => c :: l)
  | some _, [] => Except.error "unterminated placeholder"
  | some acc, c :: rest =>
    if c = rbraceChar then
      match lookupVar ctx (String.mk acc.reverse) with
      | none => Except.error ("Variable " ++ String.mk acc.reverse ++ " is not found.")
      | some v => (fulfillGo ctx none rest).map (fun l => v.data ++ l)
    else fulfillGo ctx (some (c :: acc)) rest

/-- Modelled from the spec: fulfill from the missing src/parser.rs, the
resolver applied to a whole raw parameter string. -/
def fulfill (raw : String) (ctx : Context) : Except String String :=
  (fulfillGo ctx none raw.data).map String.mk

/-- A character list contains no occurrence of the placeholder opener (a
dollar sign immediately followed by an opening brace). -/
def noPlaceholder : List Char → Bool
  | [] => true
  | [_] => true
  | c :: c2 :: rest =>
    if c = dollarChar ∧ c2 = lbraceChar then false else noPlaceholder (c2 :: rest)

/-- The payload-building loop of make_workflow from src/main.rs: for each
declared parameter name, when the configured raw parameters contain that
name, resolve the raw value through fulfill and insert it; names without a
configured entry are skipped. The Rust HashMap insertion sequence is
modelled as an association list in declared-name order. -/
def buildPayload (ctx : Context) : List String → List (String × String) → Except String (List (String × String))
  | [], _ => Except.ok []
  | key :: restKeys, raw =>
    match raw.lookup key with
    | none => buildPayload ctx restKeys raw
    | some value =>
      match fulfill value ctx with
      | Except.error e => Except.error e
      | Except.ok resolved =>
        match buildPayload ctx restKeys raw with
        | Except.error e => Except.error e
        | Except.ok tail => Except.ok ((key, resolved) :: tail)

/-- Rust str::to_lowercase, modelled character by character with
Char.toLower (the source registry keys are plain ASCII). -/
def toLowercase (s : String) : String :=
  String.mk (s.data.map Char.toLower)

/-- make_workflow from src/main.rs: look the configured type name up in the
registry after lower-casing it (missing name is an error naming the
original type), then build the resolved payload from the declared
parameters. -/
def make_workflow (reg : List (String × Workflow)) (config : WorkflowConfig) (ctx : Context) : Except String (Workflow × Payload) :=
  match reg.lookup (toLowercase config.workflow_type) with
  | none => Except.error ("Workflow " ++ config.workflow_type ++ " is not found.")
  | some w =>
    match buildPayload ctx w.parameters config.parameters with
    | Except.error e => Except.error e
    | Except.ok p => Except.ok (w, Payload.mk p)

/-- One iteration of the orchestrator loop in main from src/main.rs:
make_workflow, then execute, then replace the context input wholesale with
the returned output mapping. Any error aborts the iteration. -/
def stepRun (reg : List (String × Workflow)) (config : WorkflowConfig) (ctx : Context) : Except String Context :=
  match make_workflow reg config ctx with
  | Except.error e => Except.error e
  | Except.ok (w, p) =>
    match w.execute p with
    | Except.error e => Except.error e
    | Except.ok out => Except.ok { env := ctx.env, input := out.parameters }

/-- The error, if any, that a single orchestrator iteration surfaces for a
given step configuration in a given context. -/
def stepError (reg : List (String × Workflow)) (config : WorkflowConfig) (ctx : Context) : Option String :=
  match stepRun reg config ctx with
  | Except.error e => some e
  | Except.ok _ => none

/-- The orchestrator loop of main from src/main.rs over a whole
configuration list: run each step in order, threading the context; the
first error is returned and ends the loop. -/
def runLoop (reg : List (String × Workflow)) : List WorkflowConfig → Context → Except String Context
  | [], ctx => Except.ok ctx
  | c :: rest, ctx =>
    match stepRun reg c ctx with
    | Except.error e => Except.error e
    | Except.ok ctx2 => runLoop reg rest ctx2

/-- The orchestrator loop instrumented with the list of indices of steps
whose execute operation was actually invoked (a step whose registry lookup
or parameter resolution fails is never invoked; a step whose execute fails
was invoked). The third argument is the index of the first step. -/
def runTrace (reg : List (String × Workflow)) : List WorkflowConfig → Context → Nat → List Nat × Except String Context
  | [], ctx, _ => ([], Except.ok ctx)
  | c :: rest, ctx, i =>
    match make_workflow reg c ctx with
    | Except.error e => ([], Except.error e)
    | Except.ok (w, p) =>
      match w.execute p with
      | Except.error e => ([i], Except.error e)
      | Except.ok out =>
        let r := runTrace reg rest { env := ctx.env, input := out.parameters } (i + 1)
        (i :: r.1, r.2)

/-- The orchestrator loop instrumented with the context each attempted step
was given (the context in force while its parameters were resolved and its
execute ran). -/
def runContexts (reg : List (String × Workflow)) : List WorkflowConfig → Context → List Context × Except String Context
  | [], ctx => ([], Except.ok ctx)
  | c :: rest, ctx =>
    match stepRun reg c ctx with
    | Except.error e => ([ctx], Except.error e)
    | Except.ok ctx2 =>
      let r := runContexts reg rest ctx2
      (ctx :: r.1, r.2)

/-- Declared parameter names of the Http step, from src/http.rs. -/
def Http.PARAMS : List String := ["url", "method"]

/-- Declared output names of the Http step, from src/http.rs. -/
def Http.OUTPUT : List String := ["status_code", "text"]

/-- The response data the Http step reads from a completed request:
status().as_str() and text(). -/
structure HttpResponse where
  status_code : String
  text : String

/-- Http::execute from src/http.rs. The proxy construction, the request
build, its dispatch and the body read are real network work; the oracle
respond, applied to the method and url parameters, stands for them jointly
and carries every failure they can produce. On success the step builds its
output mapping by inserting status_code and then text. -/
def Http.execute (respond : String → String → Except String HttpResponse) (input : Payload) : Except String Payload :=
  let url := input.parameter "url"
  let method := input.parameter "method"
  match respond method url with
  | Except.error e => Except.error e
  | Except.ok resp => Except.ok (Payload.mk [("status_code", resp.status_code), ("text", resp.text)])

/-- Declared parameter names of the Command step, from src/command.rs. -/
def Command.PARAMS : List String := ["program", "daemon", "inherit_io"]

/-- Declared output names of the Command step, from src/command.rs (the
step declares no outputs). -/
def Command.OUTPUT : List String := []

/-- Rust str::parse for bool: exactly the strings true and false parse. -/
def parseBool (s : String) : Option Bool :=
  if s = "true" then some true else if s = "false" then some false else none

/-- Observable process actions of the Command step: spawning the child
(with its program and whether io is inherited) and waiting for it. -/
inductive ProcAction where
  | spawned (program : String) (inherit_io : Bool)
  | waited
deriving Repr, DecidableEq

/-- Command::execute from src/command.rs, as the sequence of process
actions it performs together with the output mapping it passes on (always
empty). The daemon and inherit_io parameters parse with a false default;
the child is spawned (spawn failure, an external outcome, is the oracle
spawnOk), and is waited upon exactly when daemon is false. -/
def Command.execute (spawnOk : Bool) (input : Payload) : Except String (List ProcAction × List (String × String)) :=
  let program := input.parameter "program"
  let daemon : Bool := (parseBool (input.parameter "daemon")).getD false
  let inherit_io : Bool := (parseBool (input.parameter "inherit_io")).getD false
  if spawnOk then
    Except.ok (ProcAction.spawned program inherit_io :: (if daemon then [] else [ProcAction.waited]), [])
  else
    Except.error "spawn failed"

/-- The WORKFLOWS registry from src/main.rs, keyed by the seven lower-case
type names in insertion order. The Http and Command entries carry the
parameter and output lists of src/http.rs and src/command.rs with their
execute bodies as oracles; the other five steps (echo, wechat, gist,
download, decompress) have no sources here, so their whole entries are
parameters. -/
def WORKFLOWS (httpExec commandExec : Payload → Except String Payload)
    (echoW wechatW gistW downloadW decompressW : Workflow) : List (String × Workflow) :=
  [("http", Workflow.mk Http.PARAMS Http.OUTPUT httpExec),
   ("echo", echoW),
   ("wechat", wechatW),
   ("gist", gistW),
   ("command", Workflow.mk Command.PARAMS Command.OUTPUT commandExec),
   ("download", downloadW),
   ("decompress", decompressW)]

/-- Sample workflow for witnesses: echoes its text parameter as output. -/
def echoSample : Workflow :=
  Workflow.mk ["text"] ["text"] (fun p => Except.ok (Payload.mk [("text", p.parameter "text")]))

/-- Sample workflow for witnesses: its execute always fails. -/
def boomSample : Workflow :=
  Workflow.mk [] [] (fun _ => Except.error "boom")

/-- Sample registry for witnesses. -/
def regSample : List (String × Workflow) :=
  [("echo", echoSample), ("boom", boomSample)]

/-- Sample context for witnesses. -/
def ctxSample : Context :=
  Context.new [("HOME", "h")]

/-- Sample step configuration for witnesses: an echo step. -/
def cfgEcho : WorkflowConfig :=
  WorkflowConfig.mk "Echo" [("text", "hello"), ("junk", "zzz")]

/-- Sample step configuration for witnesses: a failing step. -/
def cfgBoom : WorkflowConfig :=
  WorkflowConfig.mk "boom" []

/-- Sample step configuration for witnesses: an unknown type. -/
def cfgNope : WorkflowConfig :=
  WorkflowConfig.mk "nope" []

/-- A successful orchestrator iteration decomposes into a successful lookup
and resolution, a successful execute, and the wholesale context update. -/
lemma stepRun_ok_elim {reg : List (String × Workflow)} {c : WorkflowConfig} {ctx ctx2 : Context}
    (h : stepRun reg c ctx = Except.ok ctx2) :
    ∃ w p out, make_workflow reg c ctx = Except.ok (w, p) ∧ w.execute p = Except.ok out ∧
      ctx2 = { env := ctx.env, input := out.parameters } := by
  unfold stepRun at h
  split at h
  · cases h
  · rename_i w p heq
    split at h
    · cases h
    · rename_i out hex
      exact ⟨w, p, out, heq, hex, (Except.ok.injEq .. ▸ h).symm⟩

/-- A failing orchestrator iteration fails in the lookup-and-resolution
phase or in the execute phase. -/
lemma stepRun_err_elim {reg : List (String × Workflow)} {c : WorkflowConfig} {ctx : Context} {e : String}
    (h : stepRun reg c ctx = Except.error e) :
    make_workflow reg c ctx = Except.error e ∨
    ∃ w p, make_workflow reg c ctx = Except.ok (w, p) ∧ w.execute p = Except.error e := by
  unfold stepRun at h
  split at h
  · rename_i e2 heq
    cases h
    exact Or.inl heq
  · rename_i w p heq
    split at h
    · rename_i e2 hex
      cases h
      exact Or.inr ⟨w, p, heq, hex⟩
    · cases h

/-- Unfolding of the orchestrator loop after a successful first step. -/
lemma runLoop_cons_ok {reg : List (String × Workflow)} {c : WorkflowConfig} {rest : List WorkflowConfig}
    {ctx ctx2 : Context} (h : stepRun reg c ctx = Except.ok ctx2) :
    runLoop reg (c :: rest) ctx = runLoop reg rest ctx2 := by
  simp [runLoop, h]

/-- Unfolding of the orchestrator loop when the first step fails. -/
lemma runLoop_cons_err {reg : List (String × Workflow)} {c : WorkflowConfig} {rest : List WorkflowConfig}
    {ctx : Context} {e : String} (h : stepRun reg c ctx = Except.error e) :
    runLoop reg (c :: rest) ctx = Except.error e := by
  simp [runLoop, h]

/-- Unfolding of the instrumented loop after a successful first step. -/
lemma runTrace_cons_ok {reg : List (String × Workflow)} {c : WorkflowConfig} {rest : List WorkflowConfig}
    {ctx ctx2 : Context} {i : Nat} (h : stepRun reg c ctx = Except.ok ctx2) :
    runTrace reg (c :: rest) ctx i =
      (i :: (runTrace reg rest ctx2 (i + 1)).1, (runTrace reg rest ctx2 (i + 1)).2) := by
  obtain ⟨w, p, out, hmw, hex, hctx⟩ := stepRun_ok_elim h
  subst hctx
  simp [runTrace, hmw, hex]

/-- When the first step fails, the instrumented loop returns that error and
invokes no step beyond the first index. -/
lemma runTrace_cons_err {reg : List (String × Workflow)} {c : WorkflowConfig} {rest : List WorkflowConfig}
    {ctx : Context} {e : String} {i : Nat} (h : stepRun reg c ctx = Except.error e) :
    (runTrace reg (c :: rest) ctx i).2 = Except.error e ∧
    ∀ j ∈ (runTrace reg (c :: rest) ctx i).1, j ≤ i := by
  rcases stepRun_err_elim h with hmw | ⟨w, p, hmw, hex⟩
  · simp [runTrace, hmw]
  · simp [runTrace, hmw, hex]

/-- The instrumented loop computes the same run result as the plain loop. -/
lemma runTrace_snd (reg : List (String × Workflow)) :
    ∀ (cfgs : List WorkflowConfig) (ctx : Context) (i : Nat),
      (runTrace reg cfgs ctx i).2 = runLoop reg cfgs ctx := by
  intro cfgs
  induction cfgs with
  | nil => intro ctx i; rfl
  | cons c rest ih =>
    intro ctx i
    cases h : stepRun reg c ctx with
    | error e =>
      rw [runLoop_cons_err h, (runTrace_cons_err h).1]
    | ok ctx2 =>
      rw [runLoop_cons_ok h, runTrace_cons_ok h, ih]

/-- The context-instrumented loop computes the same run result as the plain
loop. -/
lemma runContexts_snd (reg : List (String × Workflow)) :
    ∀ (cfgs : List WorkflowConfig) (ctx : Context),
      (runContexts reg cfgs ctx).2 = runLoop reg cfgs ctx := by
  intro cfgs
  induction cfgs with
  | nil => intro ctx; rfl
  | cons c rest ih =>
    intro ctx
    cases h : stepRun reg c ctx with
    | error e => simp [runContexts, runLoop, h]
    | ok ctx2 => simp [runContexts, runLoop, h, ih]

/-- Every index the instrumented loop records lies in the index range of
the configured steps. -/
lemma runTrace_fst_bounds (reg : List (String × Workflow)) :
    ∀ (cfgs : List WorkflowConfig) (ctx : Context) (i j : Nat),
      j ∈ (runTrace reg cfgs ctx i).1 → i ≤ j ∧ j < i + cfgs.length := by
  intro cfgs
  induction cfgs with
  | nil => intro ctx i j hj; simp [runTrace] at hj
  | cons c rest ih =>
    intro ctx i j hj
    cases h : stepRun reg c ctx with
    | error e =>
      rcases stepRun_err_elim h with hmw | ⟨w, p, hmw, hex⟩
      · simp [runTrace, hmw] at hj
      · simp [runTrace, hmw, hex] at hj
        subst hj
        simp
    | ok ctx2 =>
      rw [runTrace_cons_ok h] at hj
      simp at hj
      rcases hj with hj | hj
      · subst hj; simp
      · have := ih ctx2 (i + 1) j hj
        constructor
        · omega
        · simp [List.length_cons]; omega

/-- Splitting the instrumented loop over an append whose prefix succeeds. -/
lemma runTrace_append (reg : List (String × Workflow)) :
    ∀ (pre rest : List WorkflowConfig) (ctx ctx2 : Context) (i : Nat),
      runLoop reg pre ctx = Except.ok ctx2 →
      runTrace reg (pre ++ rest) ctx i =
        ((runTrace reg pre ctx i).1 ++ (runTrace reg rest ctx2 (i + pre.length)).1,
         (runTrace reg rest ctx2 (i + pre.length)).2) := by
  intro pre
  induction pre with
  | nil =>
    intro rest ctx ctx2 i h
    cases h
    simp [runTrace]
  | cons c pre ih =>
    intro rest ctx ctx2 i h
    cases hsr : stepRun reg c ctx with
    | error e => rw [runLoop_cons_err hsr] at h; cases h
    | ok ctx1 =>
      rw [runLoop_cons_ok hsr] at h
      have harith : i + 1 + pre.length = i + (c :: pre).length := by
        simp [List.length_cons]
        omega
      rw [List.cons_append, runTrace_cons_ok hsr, runTrace_cons_ok hsr,
        ih rest ctx1 ctx2 (i + 1) h, harith]
      simp

/-- Splitting the context-instrumented loop over an append whose prefix
succeeds. -/
lemma runContexts_append (reg : List (String × Workflow)) :
    ∀ (pre rest : List WorkflowConfig) (ctx ctx2 : Context),
      runLoop reg pre ctx = Except.ok ctx2 →
      runContexts reg (pre ++ rest) ctx =
        ((runContexts reg pre ctx).1 ++ (runContexts reg rest ctx2).1,
         (runContexts reg rest ctx2).2) := by
  intro pre
  induction pre with
  | nil =>
    intro rest ctx ctx2 h
    cases h
    simp [runContexts]
  | cons c pre ih =>
    intro rest ctx ctx2 h
    cases hsr : stepRun reg c ctx with
    | error e => rw [runLoop_cons_err hsr] at h; cases h
    | ok ctx1 =>
      rw [runLoop_cons_ok hsr] at h
      simp [List.cons_append, runContexts, hsr, ih rest ctx1 ctx2 h]

/-- Every key of a successfully built payload is a declared parameter
name. -/
lemma buildPayload_keys (ctx : Context) :
    ∀ (declared : List String) (raw l : List (String × String)),
      buildPayload ctx declared raw = Except.ok l →
      ∀ kv ∈ l, kv.1 ∈ declared := by
  intro declared
  induction declared with
  | nil =>
    intro raw l h kv hkv
    cases h
    cases hkv
  | cons key restKeys ih =>
    intro raw l h kv hkv
    unfold buildPayload at h
    split at h
    · exact List.mem_cons_of_mem key (ih raw l h kv hkv)
    · rename_i value hvl
      split at h
      · cases h
      · rename_i resolved hres
        split at h
        · cases h
        · rename_i tail htl
          cases h
          rcases List.mem_cons.mp hkv with hhd | htlm
          · subst hhd
            exact List.mem_cons_self key restKeys
          · exact List.mem_cons_of_mem key (ih raw tail htl kv htlm)

/-- A key with no entry in the raw configured parameters has no entry in a
successfully built payload either. -/
lemma buildPayload_absent (ctx : Context) :
    ∀ (declared : List String) (raw l : List (String × String)) (k : String),
      buildPayload ctx declared raw = Except.ok l →
      raw.lookup k = none → l.lookup k = none := by
  intro declared
  induction declared with
  | nil =>
    intro raw l k h hraw
    cases h
    rfl
  | cons key restKeys ih =>
    intro raw l k h hraw
    unfold buildPayload at h
    split at h
    · exact ih raw l k h hraw
    · rename_i value hvl
      split at h
      · cases h
      · rename_i resolved hres
        split at h
        · cases h
        · rename_i tail htl
          cases h
          have hne : (k == key) = false := by
            rcases hbe : k == key with _ | _
            · rfl
            · exfalso
              have hkk : k = key := by
                exact eq_of_beq hbe
              subst hkk
              rw [hvl] at hraw
              cases hraw
          simp only [List.lookup, hne]
          exact ih raw tail k htl hraw

/-- Building the payload only reads the raw entries at declared names: raw
parameter maps agreeing on every declared name build the same payload. -/
lemma buildPayload_congr (ctx : Context) :
    ∀ (declared : List String) (raw raw2 : List (String × String)),
      (∀ k ∈ declared, raw.lookup k = raw2.lookup k) →
      buildPayload ctx declared raw = buildPayload ctx declared raw2 := by
  intro declared
  induction declared with
  | nil => intro raw raw2 _; rfl
  | cons key restKeys ih =>
    intro raw raw2 hagree
    have hkey : raw.lookup key = raw2.lookup key :=
      hagree key (List.mem_cons_self key restKeys)
    have hrest : ∀ k ∈ restKeys, raw.lookup k = raw2.lookup k := by
      intro k hk
      exact hagree k (List.mem_cons_of_mem key hk)
    unfold buildPayload
    rw [← hkey, ih raw raw2 hrest]

/-- Resolving a character list that contains no placeholder opener returns
the list unchanged. -/
lemma fulfillGo_noPlaceholder (ctx : Context) :
    ∀ cs : List Char, noPlaceholder cs = true → fulfillGo ctx none cs = Except.ok cs := by
  intro cs
  induction cs with
  | nil => intro _; rfl
  | cons c rest ih =>
    intro h
    cases rest with
    | nil => rfl
    | cons c2 rest2 =>
      unfold noPlaceholder at h
      split at h
      · cases h
      · rename_i hcond
        unfold fulfillGo
        split
        · exact absurd (by assumption) hcond
        · rw [ih h]
          rfl

/-- A successful orchestrator iteration preserves the environment tier. -/
lemma stepRun_env {reg : List (String × Workflow)} {c : WorkflowConfig} {ctx ctx2 : Context}
    (h : stepRun reg c ctx = Except.ok ctx2) : ctx2.env = ctx.env := by
  obtain ⟨w, p, out, _, _, hctx⟩ := stepRun_ok_elim h
  subst hctx
  rfl

/-- Environment invariant of the context-instrumented loop: every context a
step is given, and any final context, carries the starting environment. -/
lemma runContexts_env (reg : List (String × Workflow)) :
    ∀ (cfgs : List WorkflowConfig) (ctx : Context),
      (∀ c ∈ (runContexts reg cfgs ctx).1, c.env = ctx.env) ∧
      (∀ ctx2, (runContexts reg cfgs ctx).2 = Except.ok ctx2 → ctx2.env = ctx.env) := by
  intro cfgs
  induction cfgs with
  | nil =>
    intro ctx
    constructor
    · intro c hc
      simp [runContexts] at hc
    · intro ctx2 h
      cases h
      rfl
  | cons c rest ih =>
    intro ctx
    cases hsr : stepRun reg c ctx with
    | error e =>
      constructor
      · intro cc hcc
        simp [runContexts, hsr] at hcc
        subst hcc
        rfl
      · intro ctx2 h
        simp [runContexts, hsr] at h
    | ok ctx1 =>
      have henv : ctx1.env = ctx.env := stepRun_env hsr
      constructor
      · intro cc hcc
        simp [runContexts, hsr] at hcc
        rcases hcc with hcc | hcc
        · subst hcc; rfl
        · rw [(ih ctx1).1 cc hcc, henv]
      · intro ctx2 h
        simp [runContexts, hsr] at h
        rw [(ih ctx1).2 ctx2 h, henv]

/-- C1: for every pipeline run, the first error of any kind (unknown step
type, resolution failure, or step execution failure) at step k aborts the
entire run immediately: when the steps before position k all succeed and
the step at position k fails with error e, the orchestrator loop returns
exactly that error, and no step with an index beyond k has its execute
invoked. -/
theorem first_error_aborts_run (reg : List (String × Workflow)) (pre post : List WorkflowConfig)
    (c : WorkflowConfig) (ctx ctx2 : Context) (e : String)
    (hpre : runLoop reg pre ctx = Except.ok ctx2)
    (hstep : stepError reg c ctx2 = some e) :
    (runTrace reg (pre ++ c :: post) ctx 0).2 = Except.error e ∧
    ∀ j ∈ (runTrace reg (pre ++ c :: post) ctx 0).1, j ≤ pre.length := by
  have hfail : stepRun reg c ctx2 = Except.error e := by
    unfold stepError at hstep
    cases hsr : stepRun reg c ctx2 with
    | error e2 =>
      rw [hsr] at hstep
      cases hstep
      rfl
    | ok _ =>
      rw [hsr] at hstep
      cases hstep
  have happ := runTrace_append reg pre (c :: post) ctx ctx2 0 hpre
  have hc := @runTrace_cons_err reg c post ctx2 e (0 + pre.length) hfail
  constructor
  · rw [happ]
    exact hc.1
  · intro j hj
    rw [happ] at hj
    simp only [List.mem_append] at hj
    rcases hj with hj | hj
    · have := runTrace_fst_bounds reg pre ctx 0 j hj
      omega
    · have := hc.2 j hj
      omega

/-- Witness for C1 on a concrete run: an echo step succeeds, a failing step
aborts the run with its error, and the trailing echo step never executes. -/
theorem first_error_aborts_run_witness :
    (runTrace regSample ([cfgEcho] ++ cfgBoom :: [cfgEcho]) ctxSample 0).2 = Except.error "boom" ∧
    ∀ j ∈ (runTrace regSample ([cfgEcho] ++ cfgBoom :: [cfgEcho]) ctxSample 0).1,
      j ≤ [cfgEcho].length :=
  first_error_aborts_run regSample [cfgEcho] [cfgEcho] cfgBoom ctxSample
    (Context.mk [("HOME", "h")] [("text", "hello")]) "boom" rfl rfl

/-- C2: after every successful step, the context's last output is replaced
wholesale by exactly the output payload the step returned, with the
environment untouched, and the loop continues from that context. -/
theorem step_replaces_last_output (reg : List (String × Workflow)) (c : WorkflowConfig)
    (ctx ctx2 : Context) (h : stepRun reg c ctx = Except.ok ctx2) :
    ∃ w p out, make_workflow reg c ctx = Except.ok (w, p) ∧ w.execute p = Except.ok out ∧
      ctx2.input = out.parameters ∧ ctx2.env = ctx.env ∧
      ∀ rest, runLoop reg (c :: rest) ctx = runLoop reg rest ctx2 := by
  obtain ⟨w, p, out, hmw, hex, hctx⟩ := stepRun_ok_elim h
  exact ⟨w, p, out, hmw, hex, by rw [hctx], by rw [hctx], fun rest => runLoop_cons_ok h⟩

/-- Witness for C2 on a concrete step: the echo step's output replaces the
context input entirely. -/
theorem step_replaces_last_output_witness :
    ∃ w p out, make_workflow regSample cfgEcho ctxSample = Except.ok (w, p) ∧
      w.execute p = Except.ok out ∧
      (Context.mk [("HOME", "h")] [("text", "hello")]).input = out.parameters ∧
      (Context.mk [("HOME", "h")] [("text", "hello")]).env = ctxSample.env ∧
      ∀ rest, runLoop regSample (cfgEcho :: rest) ctxSample =
        runLoop regSample rest (Context.mk [("HOME", "h")] [("text", "hello")]) :=
  step_replaces_last_output regSample cfgEcho ctxSample
    (Context.mk [("HOME", "h")] [("text", "hello")]) rfl

/-- C6: resolving a string that contains no placeholders returns it
unchanged, for every run context. -/
theorem fulfill_no_placeholder_identity (s : String) (ctx : Context)
    (h : noPlaceholder s.data = true) : fulfill s ctx = Except.ok s := by
  unfold fulfill
  rw [fulfillGo_noPlaceholder ctx s.data h]
  cases s
  rfl

/-- Witness for C6 on a concrete placeholder-free string. -/
theorem fulfill_no_placeholder_identity_witness :
    noPlaceholder "hello".data = true ∧ fulfill "hello" ctxSample = Except.ok "hello" :=
  ⟨rfl, fulfill_no_placeholder_identity "hello" ctxSample rfl⟩

/-- C3: the configured type name is matched against the registry after
lower-casing (two type names with the same lower-casing give the same
successful lookup and payload), the registry holds exactly the seven
lower-case keys of src/main.rs, and a type name matching no registry entry
makes the run fail with the lookup error at the point that step is reached,
with no further steps executed (not even the unknown step itself). -/
theorem unknown_type_fail_fast :
    (∀ (reg : List (String × Workflow)) (t t2 : String) (ps : List (String × String))
        (ctx : Context) (r : Workflow × Payload),
        toLowercase t = toLowercase t2 →
        make_workflow reg (WorkflowConfig.mk t ps) ctx = Except.ok r →
        make_workflow reg (WorkflowConfig.mk t2 ps) ctx = Except.ok r) ∧
    (∀ (hE cE : Payload → Except String Payload) (eW wW gW dW dcW : Workflow),
        (WORKFLOWS hE cE eW wW gW dW dcW).map Prod.fst =
          ["http", "echo", "wechat", "gist", "command", "download", "decompress"]) ∧
    (∀ (reg : List (String × Workflow)) (pre post : List WorkflowConfig) (cfg : WorkflowConfig)
        (ctx ctx2 : Context),
        runLoop reg pre ctx = Except.ok ctx2 →
        reg.lookup (toLowercase cfg.workflow_type) = none →
        (runTrace reg (pre ++ cfg :: post) ctx 0).2 =
          Except.error ("Workflow " ++ cfg.workflow_type ++ " is not found.") ∧
        ∀ j ∈ (runTrace reg (pre ++ cfg :: post) ctx 0).1, j < pre.length) := by
  refine ⟨?_, ?_, ?_⟩
  · intro reg t t2 ps ctx r heq hok
    unfold make_workflow at hok ⊢
    simp only at hok ⊢
    rw [← heq]
    cases hl : reg.lookup (toLowercase t) with
    | none =>
      rw [hl] at hok
      cases hok
    | some w =>
      rw [hl] at hok
      exact hok
  · intro hE cE eW wW gW dW dcW
    rfl
  · intro reg pre post cfg ctx ctx2 hpre hlook
    have hmw : make_workflow reg cfg ctx2 =
        Except.error ("Workflow " ++ cfg.workflow_type ++ " is not found.") := by
      unfold make_workflow
      rw [hlook]
    have happ := runTrace_append reg pre (cfg :: post) ctx ctx2 0 hpre
    constructor
    · rw [happ]
      simp [runTrace, hmw]
    · intro j hj
      rw [happ] at hj
      simp only [List.mem_append] at hj
      rcases hj with hj | hj
      · have := runTrace_fst_bounds reg pre ctx 0 j hj
        omega
      · simp [runTrace, hmw] at hj

/-- Witness for C3: the type Echo finds the same entry as echo, and a run
that reaches a step of the unknown type nope fails with the lookup error
without executing the step after it. -/
theorem unknown_type_fail_fast_witness :
    make_workflow regSample (WorkflowConfig.mk "echo" [("text", "hello"), ("junk", "zzz")])
      ctxSample = Except.ok (echoSample, Payload.mk [("text", "hello")]) ∧
    ((runTrace regSample ([cfgEcho] ++ cfgNope :: [cfgEcho]) ctxSample 0).2 =
       Except.error ("Workflow " ++ cfgNope.workflow_type ++ " is not found.") ∧
     ∀ j ∈ (runTrace regSample ([cfgEcho] ++ cfgNope :: [cfgEcho]) ctxSample 0).1,
       j < [cfgEcho].length) :=
  ⟨unknown_type_fail_fast.1 regSample "Echo" "echo" [("text", "hello"), ("junk", "zzz")]
      ctxSample (echoSample, Payload.mk [("text", "hello")]) rfl rfl,
   unknown_type_fail_fast.2.2 regSample [cfgEcho] [cfgEcho] cfgNope ctxSample
      (Context.mk [("HOME", "h")] [("text", "hello")]) rfl rfl⟩

/-- C4: the payload handed to a step contains only keys the step declares
in its parameter list, and the payload construction never reads a raw
configured entry whose key is not declared (raw parameter maps agreeing on
the declared names build identical payloads, so undeclared entries are
ignored and never resolved). -/
theorem payload_restricted_to_declared :
    (∀ (reg : List (String × Workflow)) (cfg : WorkflowConfig) (ctx : Context)
        (w : Workflow) (p : Payload),
        make_workflow reg cfg ctx = Except.ok (w, p) →
        ∀ kv ∈ p.parameters, kv.1 ∈ w.parameters) ∧
    (∀ (ctx : Context) (declared : List String) (raw raw2 : List (String × String)),
        (∀ k ∈ declared, raw.lookup k = raw2.lookup k) →
        buildPayload ctx declared raw = buildPayload ctx declared raw2) := by
  constructor
  · intro reg cfg ctx w p hok kv hkv
    unfold make_workflow at hok
    split at hok
    · cases hok
    · rename_i w2 hl
      split at hok
      · cases hok
      · rename_i l hbp
        cases hok
        exact buildPayload_keys ctx _ _ _ hbp kv hkv
  · intro ctx declared raw raw2 hagree
    exact buildPayload_congr ctx declared raw raw2 hagree

/-- Witness for C4: the echo step's payload keys are declared, and the junk
entry of the configuration plays no part in the payload construction. -/
theorem payload_restricted_to_declared_witness :
    (∀ kv ∈ (Payload.mk [("text", "hello")]).parameters, kv.1 ∈ echoSample.parameters) ∧
    buildPayload ctxSample ["text"] [("text", "hello"), ("junk", "zzz")] =
      buildPayload ctxSample ["text"] [("text", "hello")] :=
  ⟨payload_restricted_to_declared.1 regSample cfgEcho ctxSample echoSample
      (Payload.mk [("text", "hello")]) rfl,
   payload_restricted_to_declared.2 ctxSample ["text"] [("text", "hello"), ("junk", "zzz")]
      [("text", "hello")] (by decide)⟩

/-- C5: a declared parameter name absent from the step configuration gets
no entry in the payload, and reading an absent key from a payload through
the parameter accessor yields the empty string. -/
theorem absent_parameter_empty_default :
    (∀ (reg : List (String × Workflow)) (cfg : WorkflowConfig) (ctx : Context)
        (w : Workflow) (p : Payload) (k : String),
        make_workflow reg cfg ctx = Except.ok (w, p) →
        cfg.parameters.lookup k = none → p.parameters.lookup k = none) ∧
    (∀ (p : Payload) (k : String), p.parameters.lookup k = none → p.parameter k = "") := by
  constructor
  · intro reg cfg ctx w p k hok hraw
    unfold make_workflow at hok
    split at hok
    · cases hok
    · rename_i w2 hl
      split at hok
      · cases hok
      · rename_i l hbp
        cases hok
        exact buildPayload_absent ctx _ _ _ _ hbp hraw
  · intro p k h
    unfold Payload.parameter
    rw [h]
    rfl

/-- Evaluation of the Command step when the spawn succeeds: it spawns the
program, waits exactly when the daemon parameter did not parse to true, and
passes on an empty output mapping. -/
lemma command_execute_ok (input : Payload) :
    Command.execute true input = Except.ok
      (ProcAction.spawned (input.parameter "program")
          ((parseBool (input.parameter "inherit_io")).getD false) ::
        (if (parseBool (input.parameter "daemon")).getD false then []
         else [ProcAction.waited]), []) := rfl

/-- Witness for C5: the key absent has no configured entry, gets no payload
entry, and reads back as the empty string. -/
theorem absent_parameter_empty_default_witness :
    (Payload.mk [("text", "hello")]).parameters.lookup "absent" = none ∧
    (Payload.mk [("text", "hello")]).parameter "absent" = "" :=
  ⟨absent_parameter_empty_default.1 regSample cfgEcho ctxSample echoSample
      (Payload.mk [("text", "hello")]) "absent" rfl rfl,
   absent_parameter_empty_default.2 (Payload.mk [("text", "hello")]) "absent" rfl⟩

/-- C7: a successful run of the Http step returns an output whose keys are
exactly the declared output names status_code and text, and the Command
step, which declares no outputs, passes on an empty output mapping. -/
theorem step_outputs_match_declared :
    (∀ (respond : String → String → Except String HttpResponse) (input out : Payload),
        Http.execute respond input = Except.ok out →
        out.parameters.map Prod.fst = Http.OUTPUT) ∧
    (∀ (spawnOk : Bool) (input : Payload) (acts : List ProcAction)
        (outm : List (String × String)),
        Command.execute spawnOk input = Except.ok (acts, outm) → outm = []) ∧
    Command.OUTPUT = [] := by
  refine ⟨?_, ?_, rfl⟩
  · intro respond input out h
    simp only [Http.execute] at h
    split at h
    · cases h
    · cases h
      rfl
  · intro spawnOk input acts outm h
    cases spawnOk with
    | false => cases h
    | true =>
      rw [command_execute_ok input] at h
      cases h
      rfl

/-- Witness for C7: a concrete successful Http response yields exactly the
declared keys, and a concrete Command run passes on no output. -/
theorem step_outputs_match_declared_witness :
    (Payload.mk [("status_code", "200"), ("text", "body")]).parameters.map Prod.fst =
      Http.OUTPUT ∧
    ([] : List (String × String)) = [] :=
  ⟨step_outputs_match_declared.1 (fun _ _ => Except.ok (HttpResponse.mk "200" "body"))
      (Payload.mk []) (Payload.mk [("status_code", "200"), ("text", "body")]) rfl,
   step_outputs_match_declared.2.1 true (Payload.mk [])
      [ProcAction.spawned "" false, ProcAction.waited] [] rfl⟩

/-- C8: the environment tier is captured once at context creation and never
modified: every context any step of the run is given, and any final
context, carries exactly the startup snapshot. -/
theorem environment_immutable (reg : List (String × Workflow)) (cfgs : List WorkflowConfig)
    (vars : List (String × String)) :
    (∀ c ∈ (runContexts reg cfgs (Context.new vars)).1, c.env = vars) ∧
    (∀ ctx2, (runContexts reg cfgs (Context.new vars)).2 = Except.ok ctx2 → ctx2.env = vars) :=
  runContexts_env reg cfgs (Context.new vars)

/-- Witness for C8: in a concrete two-step run, the context the second step
sees still carries the startup environment snapshot. -/
theorem environment_immutable_witness :
    (Context.mk [("HOME", "h")] [("text", "hello")]).env = [("HOME", "h")] :=
  (environment_immutable regSample [cfgEcho, cfgBoom] [("HOME", "h")]).1
    (Context.mk [("HOME", "h")] [("text", "hello")]) (by decide)

/-- C9: when the Command step's daemon parameter is the string true (the
only value Rust parses to true) the spawned child is not waited upon; for
every other value, absent or unparseable included, the step waits for the
child to exit. -/
theorem daemon_controls_wait (spawnOk : Bool) (input : Payload) (acts : List ProcAction)
    (outm : List (String × String))
    (h : Command.execute spawnOk input = Except.ok (acts, outm)) :
    (input.parameter "daemon" = "true" → ProcAction.waited ∉ acts) ∧
    (input.parameter "daemon" ≠ "true" → ProcAction.waited ∈ acts) := by
  cases spawnOk with
  | false => cases h
  | true =>
    rw [command_execute_ok input] at h
    cases h
    by_cases hd : input.parameter "daemon" = "true"
    · have hdt : (parseBool (input.parameter "daemon")).getD false = true := by
        rw [hd]
        rfl
      constructor
      · intro _
        rw [hdt]
        simp
      · intro hne
        exact absurd hd hne
    · have hdf : (parseBool (input.parameter "daemon")).getD false = false := by
        unfold parseBool
        split
        · exact absurd (by assumption) hd
        · split
          · rfl
          · rfl
      constructor
      · intro hdd
        exact absurd hdd hd
      · intro _
        rw [hdf]
        simp

/-- Witness for C9: with daemon configured as true the child is not waited
upon. -/
theorem daemon_controls_wait_witness :
    ("true" = "true" → ProcAction.waited ∉
      [ProcAction.spawned "" false]) ∧
    ("true" ≠ "true" → ProcAction.waited ∈
      [ProcAction.spawned "" false]) :=
  daemon_controls_wait true (Payload.mk [("daemon", "true")])
    [ProcAction.spawned "" false] [] rfl

/-- C10: when a step's execution fails, the run aborts with the context
unchanged by that step: the failing step is the last one attempted and the
context in force at the abort is exactly the one produced by the successful
prefix (whose input is the previous step's output, or empty when the
failing step is first). -/
theorem failed_step_leaves_context (reg : List (String × Workflow)) (pre post : List WorkflowConfig)
    (c : WorkflowConfig) (ctx ctx2 : Context) (e : String)
    (hpre : runLoop reg pre ctx = Except.ok ctx2)
    (hfail : stepRun reg c ctx2 = Except.error e) :
    runContexts reg (pre ++ c :: post) ctx =
      ((runContexts reg pre ctx).1 ++ [ctx2], Except.error e) := by
  rw [runContexts_append reg pre (c :: post) ctx ctx2 hpre]
  simp [runContexts, hfail]

/-- Witness for C10: a concrete run where the failing second step aborts
the run while the context still holds the first step's output. -/
theorem failed_step_leaves_context_witness :
    runContexts regSample ([cfgEcho] ++ cfgBoom :: []) ctxSample =
      ((runContexts regSample [cfgEcho] ctxSample).1 ++
        [Context.mk [("HOME", "h")] [("text", "hello")]], Except.error "boom") :=
  failed_step_leaves_context regSample [cfgEcho] [] cfgBoom ctxSample
    (Context.mk [("HOME", "h")] [("text", "hello")]) "boom" rfl rfl

end Workflows
